import Mathlib

/-
Verification of the FIX REPL command parser and shell loop
(src/FIX_protocol_quickfix/Rust_example/fix_repl/command_parser.rs and
 command_exec.rs), as a shallow embedding in Lean 4.

Modelling conventions:
  * Rust `&str` values are Lean `String`s (a structure over `List Char`).
  * `str::trim`, `str::split_whitespace` use Rust's `char::is_whitespace`
    (the Unicode White_Space set), modelled by `rustIsWhitespace`.
  * The external engine type `quickfix::Message` is modelled as an
    association list of (tag, value) pairs built by successive
    `set_field` calls; `set_field` overwrites an existing tag in place
    (last write wins) and otherwise appends, and is modelled as total
    (the engine accepts any tag/value pair at this layer).
  * `quickfix::SessionId::try_new` is external; its validity rules are
    abstracted as an oracle `SidOracle` passed to the parser.
  * A Rust `panic!`/`expect` failure terminates the process; parse
    results therefore live in `PResult`, which has an `abort` outcome in
    addition to `ok` and `err` (the Rust `Result` cases).
  * The REPL loop consumes a script: the list of lines stdin yields
    before end-of-input (each line given without its trailing newline;
    `read_line` is modelled as returning the line plus `'\n'`, and
    end-of-input as the end of the list, where `read_line` yields an
    empty buffer).  The `debug_assert_eq!` that consumes the leading
    `send_to` token runs in the debug profile, which is how the
    repository documents running the example (`cargo run --example`).
-/

namespace FixRepl

/-- Rust `char::is_whitespace`: membership in the Unicode White_Space set. -/
def rustIsWhitespace (c : Char) : Bool :=
  let n := c.toNat
  n = 0x9 || n = 0xA || n = 0xB || n = 0xC || n = 0xD || n = 0x20 ||
  n = 0x85 || n = 0xA0 || n = 0x1680 ||
  (0x2000 ≤ n && n ≤ 0x200A) ||
  n = 0x2028 || n = 0x2029 || n = 0x202F || n = 0x205F || n = 0x3000

/-- Rust `str::trim`: drop leading and trailing whitespace characters. -/
def rustTrim (s : String) : String :=
  ⟨((s.data.dropWhile rustIsWhitespace).reverse.dropWhile rustIsWhitespace).reverse⟩

/-- Split a character list at every character satisfying `p`, keeping empty
pieces (the semantics of Rust `str::split`). -/
def splitCharAux (p : Char → Bool) : List Char → List Char → List String
  | [], acc => [⟨acc.reverse⟩]
  | c :: cs, acc =>
      if p c then ⟨acc.reverse⟩ :: splitCharAux p cs []
      else splitCharAux p cs (c :: acc)

def splitChar (p : Char → Bool) (s : String) : List String :=
  splitCharAux p s.data []

/-- Rust `str::split_whitespace`: split on whitespace runs, no empty tokens. -/
def splitWhitespace (s : String) : List String :=
  (splitChar rustIsWhitespace s).filter (fun t => t ≠ "")

/-- Rust `str::split('|')` as used on the field-spec token. -/
def splitPipe (s : String) : List String :=
  splitChar (fun c => c = '|') s

/-- Worker for `splitFirstEq`: scan for the first `=`, accumulating the
characters before it in reverse. -/
def splitFirstEqAux : List Char → List Char → List String
  | [], acc => [⟨acc.reverse⟩]
  | c :: cs, acc =>
      if c = '=' then [⟨acc.reverse⟩, ⟨cs⟩] else splitFirstEqAux cs (c :: acc)

/-- Rust `str::splitn(2, '=')`: split on the first `=` only.  Yields one
piece when the string has no `=`, else the part before the first `=` and
everything after it. -/
def splitFirstEq (s : String) : List String :=
  splitFirstEqAux s.data []

/-- Numeric value of a list of decimal digits. -/
def digitsToNat (cs : List Char) : Nat :=
  cs.foldl (fun a c => a * 10 + (c.toNat - 48)) 0

/-- Modelled from the spec: the tag type of the external engine's
`set_field` is not in this repository; per the spec the left side of a
field spec "must parse as a non-negative integer tag".  This is Rust
unsigned-integer `FromStr`: an optional leading `+`, then one or more
ASCII digits, within the 32-bit range. -/
def parseTag (s : String) : Option Nat :=
  let cs := match s.data with
    | '+' :: rest => rest
    | cs => cs
  if cs ≠ [] ∧ cs.all Char.isDigit then
    let n := digitsToNat cs
    if n ≤ 4294967295 then some n else none
  else none

/-- The engine's `Message`: tag/value pairs in the order `set_field`
introduced them. -/
abbrev Message := List (Nat × String)

/-- `FieldMap::set_field`: overwrite the value of an existing tag in
place, otherwise append the new pair. -/
def setField (m : Message) (tag : Nat) (v : String) : Message :=
  if m.any (fun p => p.1 = tag) then
    m.map (fun p => if p.1 = tag then (tag, v) else p)
  else m ++ [(tag, v)]

/-- `quickfix::SessionId`: begin string, sender comp id, target comp id,
session qualifier. -/
structure SessionId where
  beginString : String
  senderCompId : String
  targetCompId : String
  qualifier : String
deriving DecidableEq, Repr

/-- Validity oracle for the external `SessionId::try_new` (its identifier
rules live in the engine, outside this repository). -/
abbrev SidOracle := String → String → String → String → Bool

/-- `BadCommand`: the parse-error type of `command_parser.rs`. -/
inductive BadCommand where
  | Unknown : String → BadCommand
  | InvalidArgumentCount : Nat → Nat → BadCommand
  | InvalidArgument : String → BadCommand
deriving DecidableEq, Repr

/-- `ShellCommand`: the command type of `command_parser.rs`. -/
inductive ShellCommand where
  | Quit
  | Help
  | Start
  | Stop
  | Status
  | Block
  | Poll
  | SendMessage : Message → SessionId → ShellCommand
  | NoOperation
deriving DecidableEq, Repr

/-- Outcome of running a fallible Rust function that may also `panic!`
(terminate the process) through `expect` or a failed assertion. -/
inductive PResult (α : Type) where
  | ok : α → PResult α
  | err : BadCommand → PResult α
  | abort : String → PResult α
deriving DecidableEq, Repr

/-- The field loop of `parse_send_to` (lines 210-232): for each field
spec, split on the first `=`, parse the tag, take the remainder as the
value, and `set_field` it into the message under construction.  The
`Invalid tag` branch mirrors the `ok_or` on the first `splitn` piece. -/
def parseFields : List String → Message → PResult Message
  | [], msg => .ok msg
  | fld :: rest, msg =>
      match splitFirstEq fld with
      | [] => .err (.InvalidArgument "Invalid tag")
      | [t] =>
          match parseTag t with
          | none => .err (.InvalidArgument "Invalid tag number")
          | some _ => .err (.InvalidArgument "Invalid value")
      | t :: v :: _ =>
          match parseTag t with
          | none => .err (.InvalidArgument "Invalid tag number")
          | some tag => parseFields rest (setField msg tag v)

/-- The argument stage of `parse_send_to`: the three `tokens.next()`
calls after `send_to` (with `InvalidArgumentCount` when a token is
absent; further tokens are never requested, hence ignored), the field
loop on the field-spec token, then the session id built through the
external `try_new` whose failure is met by `expect` (process abort). -/
def sendToArgs (sidOk : SidOracle) : List String → PResult (Message × SessionId)
  | [] => .err (.InvalidArgumentCount 0 3)
  | [_] => .err (.InvalidArgumentCount 1 3)
  | [_, _] => .err (.InvalidArgumentCount 2 3)
  | fs :: snd :: tgt :: _ =>
      match parseFields (splitPipe fs) [] with
      | .err e => .err e
      | .abort m => .abort m
      | .ok msg =>
          if sidOk "FIX.4.4" snd tgt "" = true then
            .ok (msg, ⟨"FIX.4.4", snd, tgt, ""⟩)
          else .abort "Fail to allocate new session ID"

/-- `parse_send_to` after tokenization: the `debug_assert_eq!` consumes
and checks the leading `send_to` token (a failed assertion aborts), then
the argument stage runs on the remaining tokens. -/
def sendToTokens (sidOk : SidOracle) : List String → PResult (Message × SessionId)
  | [] => .abort "assertion failed"
  | t0 :: rest =>
      if t0 ≠ "send_to" then .abort "assertion failed"
      else sendToArgs sidOk rest

/-- `parse_send_to` (lines 172-253). -/
def parse_send_to (sidOk : SidOracle) (source : String) : PResult (Message × SessionId) :=
  sendToTokens sidOk (splitWhitespace source)

/-- Lift the send-to sub-parser's result into a shell command. -/
def liftSend : PResult (Message × SessionId) → PResult ShellCommand
  | .ok (m, sid) => .ok (.SendMessage m sid)
  | .err e => .err e
  | .abort s => .abort s

/-- The keyword dispatch of `ShellCommand::from_str` on the trimmed
input (lines 125-151). -/
def dispatchTrimmed (sidOk : SidOracle) (t : String) : PResult ShellCommand :=
  if t = "quit" then .ok .Quit
  else if t = "q" then .ok .Quit
  else if t = "help" then .ok .Help
  else if t = "?" then .ok .Help
  else if t = "start" then .ok .Start
  else if t = "stop" then .ok .Stop
  else if t = "status" then .ok .Status
  else if t = "block" then .ok .Block
  else if t = "poll" then .ok .Poll
  else if t = "" then .ok .NoOperation
  else if (t.data.take 8 == "send_to ".data) = true then
    liftSend (parse_send_to sidOk t)
  else .err (.Unknown t)

/-- `ShellCommand::from_str`: trim, then dispatch. -/
def from_str (sidOk : SidOracle) (source : String) : PResult ShellCommand :=
  dispatchTrimmed sidOk (rustTrim source)

/-- Observable steps of the shell: connection-handler operations invoked
by `exec_command`, the printed help text, printed parse errors, and the
printed end-of-input notice. -/
inductive Event where
  | printHelp
  | opStart
  | opStop
  | opIsLoggedOn
  | opIsStopped
  | opBlock
  | opPoll
  | opSendToTarget : Message → SessionId → Event
  | printParseError : BadCommand → Event
  | printNotice : String → Event
deriving DecidableEq, Repr

/-- How the REPL loop ended. -/
inductive LoopExit where
  | eof
  | quitCommand
  | aborted : String → LoopExit
deriving DecidableEq, Repr

/-- `FixShell::exec_command` (command_exec.rs lines 100-233), as the list
of observable steps it performs: which connection-handler operations it
invokes (`Status` queries both `is_logged_on` and `is_stopped`) and what
it prints; `NoOperation` and `Quit` do nothing. -/
def exec_command : ShellCommand → List Event
  | .Help => [.printHelp]
  | .Start => [.opStart]
  | .Stop => [.opStop]
  | .Status => [.opIsLoggedOn, .opIsStopped]
  | .Block => [.opBlock]
  | .Poll => [.opPoll]
  | .SendMessage m sid => [.opSendToTarget m sid]
  | .NoOperation => []
  | .Quit => []

/-- `FixShell::repl` (command_exec.rs lines 255-299) on a stdin script:
each list element is one line still to be read (without its newline;
`read_line` yields the line plus `'\n'`).  When the script is exhausted,
`read_line` yields an empty buffer, the shell prints `CTRL-D` and stops.
A line parsed as `Quit` breaks the loop before dispatch; a parse error
is printed and the loop continues; any other command is executed and
the loop continues.  Returns the event trace and how the loop ended. -/
def repl (sidOk : SidOracle) : List String → List Event × LoopExit
  | [] => ([Event.printNotice "CTRL-D"], .eof)
  | line :: rest =>
      match from_str sidOk (line ++ "\n") with
      | .ok .Quit => ([], .quitCommand)
      | .ok cmd =>
          let r := repl sidOk rest
          (exec_command cmd ++ r.1, r.2)
      | .err e =>
          let r := repl sidOk rest
          (Event.printParseError e :: r.1, r.2)
      | .abort m => ([], .aborted m)

/-- The keyword table of `ShellCommand::from_str` (lines 127-142):
every exactly matched trimmed input with the command it maps to. -/
def keywordTable : List (String × ShellCommand) :=
  [("quit", .Quit), ("q", .Quit), ("help", .Help), ("?", .Help),
   ("start", .Start), ("stop", .Stop), ("status", .Status),
   ("block", .Block), ("poll", .Poll), ("", .NoOperation)]

/-- One field spec read the way the spec describes it: the part before
the first `=` must parse as a tag, everything after it is the value. -/
def specPair (sp : String) : Option (Nat × String) :=
  match splitFirstEq sp with
  | [t, v] => (parseTag t).map (fun n => (n, v))
  | _ => none

/-- All field specs read the way the spec describes them, or `none` as
soon as one is malformed. -/
def specPairs : List String → Option (List (Nat × String))
  | [] => some []
  | sp :: rest =>
      (specPair sp).bind (fun p => (specPairs rest).map (fun ps => p :: ps))

/-- A session-id oracle that accepts everything (used to instantiate
theorems at concrete inputs). -/
def acceptAll : SidOracle := fun _ _ _ _ => true

/-- A session-id oracle that rejects everything. -/
def rejectAll : SidOracle := fun _ _ _ _ => false

theorem splitFirstEqAux_ne_nil (cs acc : List Char) : splitFirstEqAux cs acc ≠ [] := by
  induction cs generalizing acc with
  | nil => simp [splitFirstEqAux]
  | cons c rest ih =>
      rw [splitFirstEqAux]
      by_cases hc : c = '='
      · rw [if_pos hc]; simp
      · rw [if_neg hc]; exact ih _

theorem splitFirstEq_ne_nil (s : String) : splitFirstEq s ≠ [] :=
  splitFirstEqAux_ne_nil s.data []

theorem splitFirstEqAux_shape (cs acc : List Char) :
    (∃ x, splitFirstEqAux cs acc = [x]) ∨ ∃ x y, splitFirstEqAux cs acc = [x, y] := by
  induction cs generalizing acc with
  | nil => exact Or.inl ⟨_, rfl⟩
  | cons c rest ih =>
      rw [splitFirstEqAux]
      by_cases hc : c = '='
      · rw [if_pos hc]; exact Or.inr ⟨_, _, rfl⟩
      · rw [if_neg hc]; exact ih _

theorem splitFirstEq_shape (s : String) :
    (∃ x, splitFirstEq s = [x]) ∨ ∃ x y, splitFirstEq s = [x, y] :=
  splitFirstEqAux_shape s.data []

theorem splitFirstEqAux_append (a : List Char) :
    ∀ (b acc : List Char), '=' ∉ a →
    splitFirstEqAux (a ++ '=' :: b) acc = [⟨acc.reverse ++ a⟩, ⟨b⟩] := by
  induction a with
  | nil => intro b acc _; simp [splitFirstEqAux]
  | cons c a2 ih =>
      intro b acc ha
      have hc : c ≠ '=' := by
        intro h; exact ha (h ▸ List.mem_cons_self c a2)
      rw [List.cons_append, splitFirstEqAux, if_neg hc,
        ih b (c :: acc) (fun h => ha (List.mem_cons_of_mem c h))]
      simp

/-- Splitting a field spec on the first `=`: the left piece is everything
before the first `=`, the right piece is everything after it (and may
itself contain `=`). -/
theorem splitFirstEq_append (a b : List Char) (ha : '=' ∉ a) :
    splitFirstEq ⟨a ++ '=' :: b⟩ = [⟨a⟩, ⟨b⟩] := by
  have h := splitFirstEqAux_append a b [] ha
  simpa [splitFirstEq] using h

theorem specPair_one (sp t : String) (hx : splitFirstEq sp = [t]) :
    specPair sp = none := by
  unfold specPair
  rw [hx]

theorem specPair_two (sp t v : String) (hx : splitFirstEq sp = [t, v]) :
    specPair sp = (parseTag t).map (fun n => (n, v)) := by
  unfold specPair
  rw [hx]

theorem specPair_eq_some (sp : String) (n : Nat) (v : String)
    (h : specPair sp = some (n, v)) :
    ∃ t, splitFirstEq sp = [t, v] ∧ parseTag t = some n := by
  rcases splitFirstEq_shape sp with ⟨x, hx⟩ | ⟨x, y, hxy⟩
  · rw [specPair_one sp x hx] at h
    exact absurd h (by simp)
  · rw [specPair_two sp x y hxy] at h
    rcases hpt : parseTag x with _ | k
    · rw [hpt] at h; simp at h
    · rw [hpt] at h
      simp only [Option.map_some', Option.some_inj, Prod.mk.injEq] at h
      obtain ⟨hk, hv⟩ := h
      exact ⟨x, by rw [hxy, hv], by rw [hpt, hk]⟩

theorem parseFields_step_one (sp t : String) (rest : List String) (acc : Message)
    (hx : splitFirstEq sp = [t]) :
    parseFields (sp :: rest) acc
      = match parseTag t with
        | none => .err (.InvalidArgument "Invalid tag number")
        | some _ => .err (.InvalidArgument "Invalid value") := by
  rw [parseFields, hx]

theorem parseFields_step_two (sp t v : String) (rest : List String) (acc : Message)
    (hx : splitFirstEq sp = [t, v]) :
    parseFields (sp :: rest) acc
      = match parseTag t with
        | none => .err (.InvalidArgument "Invalid tag number")
        | some tag => parseFields rest (setField acc tag v) := by
  rw [parseFields, hx]

theorem parseFields_cons_good (sp : String) (n : Nat) (v : String)
    (rest : List String) (acc : Message) (h : specPair sp = some (n, v)) :
    parseFields (sp :: rest) acc = parseFields rest (setField acc n v) := by
  obtain ⟨t, ht, hp⟩ := specPair_eq_some sp n v h
  rw [parseFields_step_two sp t v rest acc ht, hp]

theorem parseFields_cons_bad (sp : String) (h : specPair sp = none) :
    ∃ r, (∀ (rest : List String) (acc : Message),
        parseFields (sp :: rest) acc = .err (.InvalidArgument r))
      ∧ parseFields [sp] [] = .err (.InvalidArgument r) := by
  have key : ∃ r, ∀ (rest : List String) (acc : Message),
      parseFields (sp :: rest) acc = .err (.InvalidArgument r) := by
    rcases splitFirstEq_shape sp with ⟨x, hx⟩ | ⟨x, y, hxy⟩
    · rcases hpt : parseTag x with _ | k
      · exact ⟨"Invalid tag number", fun rest acc => by
          rw [parseFields_step_one sp x rest acc hx, hpt]⟩
      · exact ⟨"Invalid value", fun rest acc => by
          rw [parseFields_step_one sp x rest acc hx, hpt]⟩
    · have hpt : parseTag x = none := by
        have h2 := specPair_two sp x y hxy
        rw [h] at h2
        rcases hq : parseTag x with _ | k
        · rfl
        · rw [hq] at h2; simp at h2
      exact ⟨"Invalid tag number", fun rest acc => by
        rw [parseFields_step_two sp x y rest acc hxy, hpt]⟩
  obtain ⟨r, hr⟩ := key
  exact ⟨r, hr, hr [] []⟩

theorem specPairs_nil : specPairs [] = some [] := rfl

theorem specPairs_cons (sp : String) (rest : List String) :
    specPairs (sp :: rest)
      = (specPair sp).bind (fun p => (specPairs rest).map (fun ps => p :: ps)) := rfl

theorem parseFields_append (good : List String) :
    ∀ (tail : List String) (acc : Message) (pairs : List (Nat × String)),
    specPairs good = some pairs →
    parseFields (good ++ tail) acc
      = parseFields tail (pairs.foldl (fun m p => setField m p.1 p.2) acc) := by
  induction good with
  | nil =>
      intro tail acc pairs h
      rw [specPairs_nil, Option.some_inj] at h
      subst h
      simp
  | cons sp g2 ih =>
      intro tail acc pairs h
      rw [specPairs_cons] at h
      rcases hp : specPair sp with _ | p
      · rw [hp] at h; simp at h
      · rcases hg : specPairs g2 with _ | ps
        · rw [hp, hg] at h; simp at h
        · rw [hp, hg] at h
          simp only [Option.some_bind, Option.map_some', Option.some_inj] at h
          subst h
          rw [List.cons_append,
            parseFields_cons_good sp p.1 p.2 (g2 ++ tail) acc (by rw [hp]),
            ih tail (setField acc p.1 p.2) ps hg]
          rfl

theorem parseFields_all_good (specs : List String) (pairs : List (Nat × String))
    (acc : Message) (h : specPairs specs = some pairs) :
    parseFields specs acc = .ok (pairs.foldl (fun m p => setField m p.1 p.2) acc) := by
  have h2 := parseFields_append specs [] acc pairs h
  rw [List.append_nil] at h2
  rw [h2, parseFields]

theorem parseFields_err_reason (specs : List String) :
    ∀ (acc : Message) (r : String),
    parseFields specs acc = .err (.InvalidArgument r) →
    r = "Invalid tag number" ∨ r = "Invalid value" := by
  induction specs with
  | nil => intro acc r h; simp [parseFields] at h
  | cons sp rest ih =>
      intro acc r h
      rcases splitFirstEq_shape sp with ⟨x, hx⟩ | ⟨x, y, hxy⟩
      · rw [parseFields_step_one sp x rest acc hx] at h
        rcases hpt : parseTag x with _ | k
        · rw [hpt] at h
          simp only [PResult.err.injEq, BadCommand.InvalidArgument.injEq] at h
          exact Or.inl h.symm
        · rw [hpt] at h
          simp only [PResult.err.injEq, BadCommand.InvalidArgument.injEq] at h
          exact Or.inr h.symm
      · rw [parseFields_step_two sp x y rest acc hxy] at h
        rcases hpt : parseTag x with _ | k
        · rw [hpt] at h
          simp only [PResult.err.injEq, BadCommand.InvalidArgument.injEq] at h
          exact Or.inl h.symm
        · rw [hpt] at h
          exact ih _ _ h

theorem sendToTokens_cons (sidOk : SidOracle) (t0 : String) (rest : List String) :
    sendToTokens sidOk (t0 :: rest)
      = if t0 ≠ "send_to" then .abort "assertion failed"
        else sendToArgs sidOk rest := rfl

theorem sendToArgs_four (sidOk : SidOracle) (fs snd tgt : String) (more : List String) :
    sendToArgs sidOk (fs :: snd :: tgt :: more)
      = match parseFields (splitPipe fs) [] with
        | .err e => .err e
        | .abort m => .abort m
        | .ok msg =>
            if sidOk "FIX.4.4" snd tgt "" = true then
              .ok (msg, ⟨"FIX.4.4", snd, tgt, ""⟩)
            else .abort "Fail to allocate new session ID" := rfl

/-- C2: `parse("send_to 35=D|55=AAPL|54=1|38=100 CLIENT EXCHANGE")`
succeeds, returning `SendMessage` whose message holds exactly the pairs
35 ↦ D, 55 ↦ AAPL, 54 ↦ 1, 38 ↦ 100 in encounter order, and whose
session id is ("FIX.4.4", "CLIENT", "EXCHANGE", "") built from the fixed
protocol-version constant and an empty qualifier (whenever the external
engine accepts these identifiers). -/
theorem claimC2 (sidOk : SidOracle)
    (h : sidOk "FIX.4.4" "CLIENT" "EXCHANGE" "" = true) :
    from_str sidOk "send_to 35=D|55=AAPL|54=1|38=100 CLIENT EXCHANGE"
      = .ok (.SendMessage [(35, "D"), (55, "AAPL"), (54, "1"), (38, "100")]
          ⟨"FIX.4.4", "CLIENT", "EXCHANGE", ""⟩) := by
  have e : from_str sidOk "send_to 35=D|55=AAPL|54=1|38=100 CLIENT EXCHANGE"
      = liftSend (if sidOk "FIX.4.4" "CLIENT" "EXCHANGE" "" = true then
            .ok ([(35, "D"), (55, "AAPL"), (54, "1"), (38, "100")],
              ⟨"FIX.4.4", "CLIENT", "EXCHANGE", ""⟩)
          else .abort "Fail to allocate new session ID") := rfl
  rw [e, h, if_pos rfl]
  rfl

theorem claimC2_witness :
    from_str acceptAll "send_to 35=D|55=AAPL|54=1|38=100 CLIENT EXCHANGE"
      = .ok (.SendMessage [(35, "D"), (55, "AAPL"), (54, "1"), (38, "100")]
          ⟨"FIX.4.4", "CLIENT", "EXCHANGE", ""⟩) :=
  claimC2 acceptAll rfl

/-- C3: every entry of the keyword table parses (after trimming) to its
command, and no two keywords map to the same command except the synonym
pairs quit/q and help/?. -/
theorem claimC3 (sidOk : SidOracle) :
    (∀ p ∈ keywordTable, ∀ s : String, rustTrim s = p.1 →
        from_str sidOk s = .ok p.2)
  ∧ (∀ p ∈ keywordTable, ∀ q ∈ keywordTable, p.2 = q.2 →
        p.1 = q.1 ∨ (p.1 = "quit" ∧ q.1 = "q") ∨ (p.1 = "q" ∧ q.1 = "quit")
          ∨ (p.1 = "help" ∧ q.1 = "?") ∨ (p.1 = "?" ∧ q.1 = "help")) := by
  constructor
  · intro p hp s hs
    show dispatchTrimmed sidOk (rustTrim s) = .ok p.2
    rw [hs]
    fin_cases hp <;> rfl
  · decide

theorem claimC3_witness : from_str acceptAll " quit\n" = .ok .Quit :=
  (claimC3 acceptAll).1 ("quit", .Quit) (by decide) " quit\n" (by decide)

/-- C4: inside the send_to sub-parser, fewer than four whitespace tokens
fails with InvalidArgumentCount whose `current` is the zero-based index
of the first missing token and whose `expected` is 3; the documented
example `send_to 35=D CLIENT` fails with current 2, expected 3; and
tokens beyond the fourth never influence the result. -/
theorem claimC4 (sidOk : SidOracle) :
    (∀ source : String, splitWhitespace source = ["send_to"] →
        parse_send_to sidOk source = .err (.InvalidArgumentCount 0 3))
  ∧ (∀ (source a : String), splitWhitespace source = ["send_to", a] →
        parse_send_to sidOk source = .err (.InvalidArgumentCount 1 3))
  ∧ (∀ (source a b : String), splitWhitespace source = ["send_to", a, b] →
        parse_send_to sidOk source = .err (.InvalidArgumentCount 2 3))
  ∧ from_str sidOk "send_to 35=D CLIENT" = .err (.InvalidArgumentCount 2 3)
  ∧ (∀ (s1 s2 fs snd tgt : String) (r1 r2 : List String),
        splitWhitespace s1 = "send_to" :: fs :: snd :: tgt :: r1 →
        splitWhitespace s2 = "send_to" :: fs :: snd :: tgt :: r2 →
        parse_send_to sidOk s1 = parse_send_to sidOk s2) := by
  refine ⟨?_, ?_, ?_, rfl, ?_⟩
  · intro source h
    unfold parse_send_to
    rw [h]
    rfl
  · intro source a h
    unfold parse_send_to
    rw [h]
    rfl
  · intro source a b h
    unfold parse_send_to
    rw [h]
    rfl
  · intro s1 s2 fs snd tgt r1 r2 h1 h2
    unfold parse_send_to
    rw [h1, h2]
    rfl

theorem claimC4_witness :
    parse_send_to acceptAll "send_to 35=D CLIENT" = .err (.InvalidArgumentCount 2 3)
    ∧ parse_send_to acceptAll "send_to a b c d"
        = parse_send_to acceptAll "send_to a b c e" :=
  ⟨(claimC4 acceptAll).2.2.1 "send_to 35=D CLIENT" "35=D" "CLIENT" (by decide),
   (claimC4 acceptAll).2.2.2.2 "send_to a b c d" "send_to a b c e" "a" "b" "c"
     ["d"] ["e"] (by decide) (by decide)⟩

/-- C5 counterexample: the input `" x "` matches no keyword verbatim and
does not start with `send_to `, yet parsing returns `Unknown` carrying
the trimmed text `"x"`, not the original `" x "`: the original input is
not preserved verbatim. -/
theorem claimC5_counterexample :
    (∀ p ∈ keywordTable, " x " ≠ p.1)
    ∧ (" x ".data.take 8 == "send_to ".data) = false
    ∧ from_str acceptAll " x " = .err (.Unknown "x")
    ∧ from_str acceptAll " x " ≠ .err (.Unknown " x ") := by decide

/-- C5 amended: for every string whose trimmed form matches no keyword
of the table and does not start with `send_to `, parse returns `Unknown`
carrying the trimmed input text. -/
theorem claimC5_amended (sidOk : SidOracle) (s : String)
    (h1 : ∀ p ∈ keywordTable, rustTrim s ≠ p.1)
    (h2 : ((rustTrim s).data.take 8 == "send_to ".data) = false) :
    from_str sidOk s = .err (.Unknown (rustTrim s)) := by
  show dispatchTrimmed sidOk (rustTrim s) = _
  unfold dispatchTrimmed
  rw [if_neg (h1 ("quit", .Quit) (by decide)),
    if_neg (h1 ("q", .Quit) (by decide)),
    if_neg (h1 ("help", .Help) (by decide)),
    if_neg (h1 ("?", .Help) (by decide)),
    if_neg (h1 ("start", .Start) (by decide)),
    if_neg (h1 ("stop", .Stop) (by decide)),
    if_neg (h1 ("status", .Status) (by decide)),
    if_neg (h1 ("block", .Block) (by decide)),
    if_neg (h1 ("poll", .Poll) (by decide)),
    if_neg (h1 ("", .NoOperation) (by decide)),
    h2]
  simp

theorem claimC5_amended_witness :
    from_str acceptAll " x " = .err (.Unknown (rustTrim " x ")) :=
  claimC5_amended acceptAll " x " (by decide) (by decide)

/-- C7: on immediate end-of-input the shell prints the termination
notice CTRL-D and stops the loop as normal termination, performing zero
dispatches. -/
theorem claimC7 (sidOk : SidOracle) :
    repl sidOk [] = ([Event.printNotice "CTRL-D"], LoopExit.eof) := rfl

/-- C8: a line on which parsing fails makes the shell print the error,
dispatch nothing for that line, and continue the loop exactly as it
would on the remaining input; a parse error never terminates the
shell. -/
theorem claimC8 (sidOk : SidOracle) (line : String) (rest : List String)
    (e : BadCommand) (h : from_str sidOk (line ++ "\n") = .err e) :
    repl sidOk (line :: rest)
      = (Event.printParseError e :: (repl sidOk rest).1, (repl sidOk rest).2) := by
  rw [repl, h]

theorem claimC8_witness :
    repl acceptAll ["bogus"]
      = (Event.printParseError (.Unknown "bogus") :: (repl acceptAll []).1,
         (repl acceptAll []).2) :=
  claimC8 acceptAll "bogus" [] (.Unknown "bogus") (by decide)

/-- C6: a line parsed as NoOperation makes the loop continue with no
observable step (no connection-handler operation, nothing printed); a
line parsed as Quit stops the loop before any dispatch; and the script
help, status, blank line, quit produces exactly one help display and one
status query, nothing for the blank line, and ends on quit with no
fourth dispatch. -/
theorem claimC6 (sidOk : SidOracle) :
    (∀ (line : String) (rest : List String),
        from_str sidOk (line ++ "\n") = .ok .NoOperation →
        repl sidOk (line :: rest) = repl sidOk rest)
  ∧ (∀ (line : String) (rest : List String),
        from_str sidOk (line ++ "\n") = .ok .Quit →
        repl sidOk (line :: rest) = ([], .quitCommand))
  ∧ repl sidOk ["help", "status", "", "quit"]
      = ([.printHelp, .opIsLoggedOn, .opIsStopped], .quitCommand) := by
  refine ⟨?_, ?_, rfl⟩
  · intro line rest h
    rw [repl, h]
    rfl
  · intro line rest h
    rw [repl, h]

theorem claimC6_witness :
    repl acceptAll ["", "quit"] = repl acceptAll ["quit"]
    ∧ repl acceptAll ["quit", "help"] = ([], .quitCommand) :=
  ⟨(claimC6 acceptAll).1 "" ["quit"] (by decide),
   (claimC6 acceptAll).2.1 "quit" ["help"] (by decide)⟩

/-- C9: inside send_to parsing, when the fields parse but the external
session-id construction rejects the sender/target pair, the reference
implementation aborts the process (the `expect` on `try_new`) instead of
returning any recoverable parse error. -/
theorem claimC9 (sidOk : SidOracle) (source fs snd tgt : String)
    (rest : List String) (m : Message)
    (hsrc : splitWhitespace source = "send_to" :: fs :: snd :: tgt :: rest)
    (hfields : parseFields (splitPipe fs) [] = .ok m)
    (hsid : sidOk "FIX.4.4" snd tgt "" = false) :
    parse_send_to sidOk source = .abort "Fail to allocate new session ID"
    ∧ ∀ e : BadCommand, parse_send_to sidOk source ≠ .err e := by
  have key : parse_send_to sidOk source = .abort "Fail to allocate new session ID" := by
    unfold parse_send_to
    rw [hsrc, sendToTokens_cons, if_neg (fun hn => hn rfl), sendToArgs_four, hfields]
    simp [hsid]
  refine ⟨key, ?_⟩
  intro e h
  rw [key] at h
  exact PResult.noConfusion h

theorem claimC9_witness :
    parse_send_to rejectAll "send_to 35=D CLIENT EXCHANGE"
      = .abort "Fail to allocate new session ID"
    ∧ ∀ e : BadCommand,
        parse_send_to rejectAll "send_to 35=D CLIENT EXCHANGE" ≠ .err e :=
  claimC9 rejectAll "send_to 35=D CLIENT EXCHANGE" "35=D" "CLIENT" "EXCHANGE"
    [] [(35, "D")] (by decide) (by decide) rfl

theorem sendToTokens_invalidArgument (sidOk : SidOracle) (toks : List String)
    (r : String) (h : sendToTokens sidOk toks = .err (.InvalidArgument r)) :
    ∃ fs, parseFields (splitPipe fs) [] = .err (.InvalidArgument r) := by
  cases toks with
  | nil => exact absurd h (by simp [sendToTokens])
  | cons t0 rest =>
    rw [sendToTokens_cons] at h
    by_cases h0 : t0 = "send_to"
    · rw [if_neg (fun hn => hn h0)] at h
      cases rest with
      | nil => exact absurd h (by simp [sendToArgs])
      | cons a rest1 =>
        cases rest1 with
        | nil => exact absurd h (by simp [sendToArgs])
        | cons b rest2 =>
          cases rest2 with
          | nil => exact absurd h (by simp [sendToArgs])
          | cons c rest3 =>
            rw [sendToArgs_four] at h
            rcases hpf : parseFields (splitPipe a) [] with msg | e | s
            · rw [hpf] at h
              rcases hq : sidOk "FIX.4.4" b c "" with _ | _
              · rw [hq] at h; simp at h
              · rw [hq] at h; simp at h
            · rw [hpf] at h
              simp only [PResult.err.injEq] at h
              exact ⟨a, by rw [hpf, h]⟩
            · rw [hpf] at h; simp at h
    · rw [if_pos h0] at h
      exact absurd h (by simp)

/-- C10: splitting a field spec on `=` always yields at least one piece,
so the `Invalid tag` error branch of the field loop is unreachable, and
the only field-level InvalidArgument reasons the send_to sub-parser can
return are `Invalid tag number` and `Invalid value`. -/
theorem claimC10 :
    (∀ s : String, splitFirstEq s ≠ [])
  ∧ (∀ (specs : List String) (acc : Message),
        parseFields specs acc ≠ .err (.InvalidArgument "Invalid tag"))
  ∧ (∀ (sidOk : SidOracle) (source r : String),
        parse_send_to sidOk source = .err (.InvalidArgument r) →
        r = "Invalid tag number" ∨ r = "Invalid value") := by
  refine ⟨splitFirstEq_ne_nil, ?_, ?_⟩
  · intro specs acc h
    rcases parseFields_err_reason specs acc "Invalid tag" h with h2 | h2 <;> simp at h2
  · intro sidOk source r h
    obtain ⟨fs, hf⟩ := sendToTokens_invalidArgument sidOk (splitWhitespace source) r h
    exact parseFields_err_reason (splitPipe fs) [] r hf

/-- C1: for every send_to input tokenizing to the literal send_to, a
field-spec token, a sender and a target: the field-spec token is split
on `|` into field specs and each spec is split on the first `=` only
(so values may contain `=`); when every spec has an `=` and a left side
parsing as a non-negative integer tag, the message holds exactly the
(tag, value) pairs in encounter order; the first spec missing `=` or
with an unparseable left side makes the whole parse fail with
InvalidArgument determined by that spec alone, no partial message being
returned. -/
theorem claimC1 (sidOk : SidOracle) (source fs snd tgt : String)
    (rest : List String)
    (hsrc : splitWhitespace source = "send_to" :: fs :: snd :: tgt :: rest) :
    (∀ a b : List Char, '=' ∉ a → splitFirstEq ⟨a ++ '=' :: b⟩ = [⟨a⟩, ⟨b⟩])
  ∧ (∀ pairs : List (Nat × String), specPairs (splitPipe fs) = some pairs →
        parseFields (splitPipe fs) []
          = .ok (pairs.foldl (fun m p => setField m p.1 p.2) []))
  ∧ (∀ (good : List String) (gpairs : List (Nat × String)) (bad : String)
        (brest : List String),
        splitPipe fs = good ++ bad :: brest →
        specPairs good = some gpairs →
        specPair bad = none →
        ∃ r, parse_send_to sidOk source = .err (.InvalidArgument r)
          ∧ parseFields [bad] [] = .err (.InvalidArgument r)) := by
  refine ⟨splitFirstEq_append, ?_, ?_⟩
  · intro pairs hp
    exact parseFields_all_good _ pairs [] hp
  · intro good gpairs bad brest hsplit hgood hbad
    obtain ⟨r, hall, hone⟩ := parseFields_cons_bad bad hbad
    refine ⟨r, ?_, hone⟩
    unfold parse_send_to
    rw [hsrc, sendToTokens_cons, if_neg (fun hn => hn rfl), sendToArgs_four,
      hsplit, parseFields_append good (bad :: brest) [] gpairs hgood, hall]

theorem claimC1_witness :
    splitFirstEq ⟨['3', '5'] ++ '=' :: ['D', '=', 'E']⟩ = [⟨['3', '5']⟩, ⟨['D', '=', 'E']⟩]
    ∧ parseFields (splitPipe "35=D|55=AAPL") []
        = .ok ([((35 : Nat), "D"), (55, "AAPL")].foldl (fun m p => setField m p.1 p.2) [])
    ∧ ∃ r, parse_send_to acceptAll "send_to 35=D|nine CLIENT EXCHANGE"
          = .err (.InvalidArgument r)
        ∧ parseFields ["nine"] [] = .err (.InvalidArgument r) := by
  have g := claimC1 acceptAll "send_to 35=D|55=AAPL CLIENT EXCHANGE" "35=D|55=AAPL"
    "CLIENT" "EXCHANGE" [] (by decide)
  have b := claimC1 acceptAll "send_to 35=D|nine CLIENT EXCHANGE" "35=D|nine"
    "CLIENT" "EXCHANGE" [] (by decide)
  exact ⟨g.1 ['3', '5'] ['D', '=', 'E'] (by decide),
    g.2.1 [((35 : Nat), "D"), (55, "AAPL")] (by decide),
    b.2.2 ["35=D"] [((35 : Nat), "D")] "nine" [] (by decide) (by decide) (by decide)⟩

theorem claimC10_witness :
    parse_send_to acceptAll "send_to tag CLIENT EXCHANGE"
      = .err (.InvalidArgument "Invalid tag number")
    ∧ ("Invalid tag number" = "Invalid tag number"
        ∨ "Invalid tag number" = "Invalid value") :=
  ⟨by decide,
   claimC10.2.2 acceptAll "send_to tag CLIENT EXCHANGE" "Invalid tag number" (by decide)⟩

end FixRepl
